import Mathlib

/-!
Shallow embedding of the Pomodoro timer core (src/app.js): the phase state
machine (mode, running flag, drift-corrected countdown), the bounded history
log, and the settings store with clamping.

JavaScript numbers are modelled as `JSNum := Option ℚ`, where `none` stands
for NaN and `some q` for a finite value; the arithmetic and comparison
helpers below reproduce the JS semantics the code relies on (NaN propagates
through arithmetic and through Math.min / Math.max, and every ordering
comparison involving NaN is false).  Wall-clock instants (Date.now, ISO
timestamp strings) and monotonic-clock readings (performance.now) are both
modelled as rationals, in milliseconds; the several `new Date()` reads inside
one tick are modelled as a single instant `wallNow`.
-/

/-- A JavaScript number: `none` is NaN, `some q` a finite value. -/
abbrev JSNum := Option ℚ

/-- JS subtraction: NaN propagates. -/
def jsSub : JSNum → JSNum → JSNum
  | some a, some b => some (a - b)
  | _, _ => none

/-- Multiplication by a (finite) constant, as in `state.totalSec * 1000`. -/
def jsMulC (x : JSNum) (c : ℚ) : JSNum := x.map (fun a => a * c)

/-- `Math.min(b, x)` for finite `b`: NaN in, NaN out. -/
def jsMin (b : ℚ) : JSNum → JSNum
  | some a => some (min b a)
  | none => none

/-- `Math.max(a, x)` for finite `a`: NaN in, NaN out. -/
def jsMax (a : ℚ) : JSNum → JSNum
  | some b => some (max a b)
  | none => none

/-- JS `x <= y`: any comparison with NaN is false. -/
def jsLe : JSNum → JSNum → Bool
  | some a, some b => a ≤ b
  | _, _ => false

/-- The three tab modes; the source stores them as "focus" | "short" | "long". -/
inductive Mode
  | focus
  | short
  | long
deriving DecidableEq, Repr

/-- The settings record (src/app.js `defaults` shape): `theme`,
`focusMin`, `shortMin`, `longMin`, `goalSessions`, `autoStart`. -/
structure Settings where
  theme : String
  focusMin : JSNum
  shortMin : JSNum
  longMin : JSNum
  goalSessions : JSNum
  autoStart : Bool
deriving DecidableEq, Repr

/-- src/app.js `defaults`. -/
def defaults : Settings :=
  { theme := "dark"
    focusMin := some 25
    shortMin := some 5
    longMin := some 15
    goalSessions := some 8
    autoStart := false }

/-- One record pushed onto `state.history` on completion. -/
structure HistoryEntry where
  id : String
  day : String
  mode : Mode
  duration : JSNum
  startedAt : JSNum
  endedAt : ℚ
deriving DecidableEq, Repr

/-- The mutable `state` object of src/app.js (the DOM fields are
presentation glue and are not modelled; `interval` keeps only whether a
tick schedule handle is installed). -/
structure TimerState where
  mode : Mode
  running : Bool
  totalSec : JSNum
  remainingSec : JSNum
  lastPerf : Option ℚ
  interval : Bool
  phaseStartISO : Option ℚ
  settings : Settings
  history : List HistoryEntry
deriving DecidableEq, Repr

/-- src/app.js `modeToMinutes(mode)`. -/
def modeToMinutes (m : Mode) (st : Settings) : JSNum :=
  match m with
  | Mode.focus => st.focusMin
  | Mode.short => st.shortMin
  | Mode.long => st.longMin

/-- src/app.js `pause()`: stops running and cancels the tick schedule. -/
def pause (s : TimerState) : TimerState :=
  { s with running := false, interval := false }

/-- src/app.js `start()`: no-op when running; else sets running, records
`phaseStartISO` when unset, installs the tick schedule when absent.
`wallNow` is the `new Date()` reading. -/
def start (wallNow : ℚ) (s : TimerState) : TimerState :=
  if s.running then s
  else
    let s1 := { s with running := true }
    let s2 :=
      if s1.phaseStartISO.isNone then { s1 with phaseStartISO := some wallNow }
      else s1
    if s2.interval then s2 else { s2 with interval := true }

/-- src/app.js `resetTimer(keepMode)`: pause, clear `lastPerf` and
`phaseStartISO`, force focus when `keepMode` is false, recompute
`totalSec` and `remainingSec` from the settings. -/
def resetTimer (keepMode : Bool) (s : TimerState) : TimerState :=
  let s1 := pause s
  let s2 := { s1 with lastPerf := none, phaseStartISO := none }
  let s3 := if keepMode then s2 else { s2 with mode := Mode.focus }
  let total := jsMulC (modeToMinutes s3.mode s3.settings) 60
  { s3 with totalSec := total, remainingSec := total }

/-- src/app.js `setMode(mode)`: store the mode; when not running, implicitly
`resetTimer(true)`; when running, only the label changes (no state change
beyond `mode`). -/
def setMode (m : Mode) (s : TimerState) : TimerState :=
  let s1 := { s with mode := m }
  if s1.running then s1 else resetTimer true s1

/-- The history push of src/app.js tick: `unshift` the entry, then
`if(history.length > 200) history.length = 200`. -/
def appendHistory (e : HistoryEntry) (h : List HistoryEntry) : List HistoryEntry :=
  let h1 := e :: h
  if h1.length > 200 then h1.take 200 else h1

/-- The elapsed-seconds delta of one tick:
`(now - state.lastPerf) / 1000`, after `lastPerf` defaults to `now` when
null. -/
def tickDt (perfNow : ℚ) (s : TimerState) : ℚ :=
  (perfNow - s.lastPerf.getD perfNow) / 1000

/-- Whether this tick's subtraction drives `remainingSec` to `<= 0`
(the completion test of src/app.js line 273). -/
def completes (perfNow : ℚ) (s : TimerState) : Bool :=
  jsLe (jsSub s.remainingSec (some (tickDt perfNow s))) (some 0)

/-- The decrement step of src/app.js `tick()` (lines 266-271): record
`lastPerf = now` and subtract the drift-corrected delta from
`remainingSec`. -/
def tickStep (perfNow : ℚ) (s : TimerState) : TimerState :=
  { s with lastPerf := some perfNow
           remainingSec := jsSub s.remainingSec (some (tickDt perfNow s)) }

/-- The start timestamp logged on completion:
`state.phaseStartISO || new Date(Date.now() - state.totalSec*1000)`. -/
def fallbackStart (wallNow : ℚ) (s : TimerState) : JSNum :=
  match s.phaseStartISO with
  | some t0 => some t0
  | none => jsSub (some wallNow) (jsMulC s.totalSec 1000)

/-- The completion branch of src/app.js `tick()` (lines 274-308), applied to
the state that already holds the decremented `remainingSec`: log the entry
with the planned `totalSec`, advance the mode via `setMode`, reset
`totalSec` / `remainingSec` / `phaseStartISO` / `lastPerf` for the new
phase, and pause unless `autoStart`. -/
def tickComplete (wallNow : ℚ) (day id : String) (s : TimerState) : TimerState :=
  let e : HistoryEntry :=
    { id := id, day := day, mode := s.mode, duration := s.totalSec
      startedAt := fallbackStart wallNow s, endedAt := wallNow }
  let s2 := { s with history := appendHistory e s.history }
  let s3 := if s2.mode = Mode.focus then setMode Mode.short s2 else setMode Mode.focus s2
  let total := jsMulC (modeToMinutes s3.mode s3.settings) 60
  let s4 := { s3 with totalSec := total, remainingSec := total
                      phaseStartISO := some wallNow, lastPerf := none }
  if s4.settings.autoStart then s4 else pause s4

/-- src/app.js `tick()`: no-op unless running; drift-corrected decrement of
`remainingSec` (`tickStep`); completion handling when it reaches `<= 0`
(`completes` is exactly the test `state.remainingSec <= 0` on the
decremented value). -/
def tick (perfNow wallNow : ℚ) (day id : String) (s : TimerState) : TimerState :=
  if s.running then
    if completes perfNow s then tickComplete wallNow day id (tickStep perfNow s)
    else tickStep perfNow s
  else s

/-- The fixed advancement rule of src/app.js lines 293-295:
focus goes to short break, every break goes back to focus. -/
def advanceMode (m : Mode) : Mode :=
  if m = Mode.focus then Mode.short else Mode.focus

/-! ### Settings store -/

/-- The value a UI input contributes through
`Number(el.input.value || default)`: the empty (falsy) string, a string that
coerces to a finite number, or a string that coerces to NaN. -/
inductive UIValue
  | empty
  | num (q : ℚ)
  | nonNumeric
deriving DecidableEq, Repr

/-- `Number(value || default)` of src/app.js. -/
def toNumber (dflt : ℚ) : UIValue → JSNum
  | UIValue.empty => some dflt
  | UIValue.num q => some q
  | UIValue.nonNumeric => none

/-- src/app.js `clamp = (v, a, b) => Math.max(a, Math.min(b, v))`. -/
def clamp (v : JSNum) (a b : ℚ) : JSNum := jsMax a (jsMin b v)

/-- The four numeric inputs and the auto-start checkbox of the settings
modal. -/
structure UIInputs where
  focusInput : UIValue
  shortInput : UIValue
  longInput : UIValue
  goalInput : UIValue
  autoStartChecked : Bool
deriving DecidableEq, Repr

/-- src/app.js `applySettingsFromUI()`: clamp each coerced input into its
range, persist, and `resetTimer(true)` when not running. -/
def applySettingsFromUI (ui : UIInputs) (s : TimerState) : TimerState :=
  let st :=
    { s.settings with
      focusMin := clamp (toNumber 25 ui.focusInput) 1 120
      shortMin := clamp (toNumber 5 ui.shortInput) 1 60
      longMin := clamp (toNumber 15 ui.longInput) 1 90
      goalSessions := clamp (toNumber 8 ui.goalInput) 1 30
      autoStart := ui.autoStartChecked }
  let s1 := { s with settings := st }
  if s1.running then s1 else resetTimer true s1

/-- A stored settings record as JSON.parse may deliver it: any subset of the
fields present. -/
structure StoredFields where
  theme : Option String := none
  focusMin : Option ℚ := none
  shortMin : Option ℚ := none
  longMin : Option ℚ := none
  goalSessions : Option ℚ := none
  autoStart : Option Bool := none
deriving DecidableEq, Repr

/-- The outcome of reading the settings key from localStorage:
the key is absent (or empty), JSON.parse throws, or it yields a record. -/
inductive StoredSettings
  | missing
  | corrupt
  | parsed (p : StoredFields)
deriving DecidableEq, Repr

/-- The spread `{ ...defaults, ...JSON.parse(raw) }`: a present field wins,
an absent field keeps the default. -/
def mergeOver (p : StoredFields) (base : Settings) : Settings :=
  { theme := p.theme.getD base.theme
    focusMin := match p.focusMin with | some q => some q | none => base.focusMin
    shortMin := match p.shortMin with | some q => some q | none => base.shortMin
    longMin := match p.longMin with | some q => some q | none => base.longMin
    goalSessions := match p.goalSessions with | some q => some q | none => base.goalSessions
    autoStart := p.autoStart.getD base.autoStart }

/-- src/app.js `loadSettings()`: missing key or a parse failure yields the
defaults, a parsed record is merged over the defaults. -/
def loadSettings : StoredSettings → Settings
  | StoredSettings.missing => defaults
  | StoredSettings.corrupt => defaults
  | StoredSettings.parsed p => mergeOver p defaults

/-- Whether a persisted numeric field is a finite value inside `[a, b]`. -/
def inClampRange (v : JSNum) (a b : ℚ) : Bool :=
  match v with
  | some q => decide (a ≤ q) && decide (q ≤ b)
  | none => false

/-- Settings whose three duration fields are finite and inside the ranges the
spec's clamp enforces. -/
def validSettings (st : Settings) : Bool :=
  inClampRange st.focusMin 1 120 && inClampRange st.shortMin 1 60 &&
    inClampRange st.longMin 1 90

/-- The `state` literal of src/app.js lines 23-34: focus, paused, 25*60
seconds, no tick schedule, settings and history as loaded. -/
def initialState (st : Settings) (h : List HistoryEntry) : TimerState :=
  { mode := Mode.focus
    running := false
    totalSec := some (25 * 60)
    remainingSec := some (25 * 60)
    lastPerf := none
    interval := false
    phaseStartISO := none
    settings := st
    history := h }

/-- The freshly loaded state with default settings and empty history. -/
def sampleState0 : TimerState := initialState defaults []

/-- A running state one tick away from completion, used to exercise the
completion path on concrete inputs. -/
def sampleRun : TimerState :=
  { sampleState0 with running := true, interval := true, remainingSec := some 0 }

/-- Concrete day key and entry id threaded through concrete tick calls. -/
def sampleDay : String := "2026-10-11"

/-- Concrete entry id, as `String(Date.now())` might produce. -/
def sampleId : String := "1760140800000"

/-- A concrete history entry for concrete history computations. -/
def sampleEntry : HistoryEntry :=
  { id := sampleId, day := sampleDay, mode := Mode.focus, duration := some 1500
    startedAt := some 0, endedAt := 1500000 }

/-- A running state with auto-start enabled, one tick away from
completion. -/
def sampleRunAuto : TimerState :=
  { sampleRun with settings := { defaults with autoStart := true } }

/-- Folding a whole sequence of completions into the history log, one
`appendHistory` per completion. -/
def appendAll (es : List HistoryEntry) (h : List HistoryEntry) : List HistoryEntry :=
  es.foldl (fun acc e => appendHistory e acc) h

/-- Settings-modal inputs where the focus field holds a non-numeric,
non-empty string (its `Number(...)` coercion is NaN). -/
def sampleUIBad : UIInputs :=
  { focusInput := UIValue.nonNumeric
    shortInput := UIValue.empty
    longInput := UIValue.empty
    goalInput := UIValue.empty
    autoStartChecked := false }

/-- Settings-modal inputs that are empty or coerce to numbers, several of
them out of range. -/
def sampleUIGood : UIInputs :=
  { focusInput := UIValue.num 500
    shortInput := UIValue.empty
    longInput := UIValue.num 0
    goalInput := UIValue.num (7 / 2)
    autoStartChecked := true }

/-! ### Helper lemmas -/

/-- The decrement step changes only `lastPerf` and `remainingSec`. -/
theorem tickStep_fields (perfNow : ℚ) (s : TimerState) :
    (tickStep perfNow s).mode = s.mode ∧
    (tickStep perfNow s).running = s.running ∧
    (tickStep perfNow s).totalSec = s.totalSec ∧
    (tickStep perfNow s).phaseStartISO = s.phaseStartISO ∧
    (tickStep perfNow s).settings = s.settings ∧
    (tickStep perfNow s).history = s.history ∧
    (tickStep perfNow s).interval = s.interval :=
  ⟨rfl, rfl, rfl, rfl, rfl, rfl, rfl⟩

/-- Closed form of the completion branch on a running state. -/
theorem tickComplete_eq (wallNow : ℚ) (day id : String) (t : TimerState)
    (hrun : t.running = true) :
    tickComplete wallNow day id t =
      { mode := advanceMode t.mode
        running := t.settings.autoStart
        totalSec := jsMulC (modeToMinutes (advanceMode t.mode) t.settings) 60
        remainingSec := jsMulC (modeToMinutes (advanceMode t.mode) t.settings) 60
        lastPerf := none
        interval := if t.settings.autoStart then t.interval else false
        phaseStartISO := some wallNow
        settings := t.settings
        history :=
          appendHistory
            { id := id, day := day, mode := t.mode, duration := t.totalSec
              startedAt := fallbackStart wallNow t, endedAt := wallNow }
            t.history } := by
  rcases t with ⟨mo, run, tot, rem, lp, itv, ph, st, hist⟩
  rcases st with ⟨th, fm, sm, lm, gs, auto⟩
  have hr : run = true := hrun
  subst hr
  cases mo <;> cases auto <;> rfl

/-- On a running state whose decremented remaining value is non-positive,
`tick` is the completion branch after the decrement step. -/
theorem tick_eq_of_completes (perfNow wallNow : ℚ) (day id : String)
    (s : TimerState) (hrun : s.running = true) (hc : completes perfNow s = true) :
    tick perfNow wallNow day id s = tickComplete wallNow day id (tickStep perfNow s) := by
  simp [tick, hrun, hc]

/-- On a running state whose decremented remaining value stays positive,
`tick` is just the decrement step. -/
theorem tick_eq_of_not_completes (perfNow wallNow : ℚ) (day id : String)
    (s : TimerState) (hrun : s.running = true) (hc : completes perfNow s = false) :
    tick perfNow wallNow day id s = tickStep perfNow s := by
  simp [tick, hrun, hc]

/-- The history push always yields `min (previous + 1) 200` entries. -/
theorem appendHistory_length (e : HistoryEntry) (h : List HistoryEntry) :
    (appendHistory e h).length = min (h.length + 1) 200 := by
  unfold appendHistory
  by_cases hl : (e :: h).length > 200
  · rw [if_pos hl]
    simp only [List.length_take, List.length_cons]
    simp only [List.length_cons] at hl
    omega
  · rw [if_neg hl]
    simp only [List.length_cons]
    simp only [List.length_cons] at hl
    omega

/-- Below the cap, the history push is a plain bounded prepend. -/
theorem appendHistory_eq_take (e : HistoryEntry) (l : List HistoryEntry)
    (hl : l.length ≤ 200) :
    appendHistory e l = (e :: l).take 200 := by
  unfold appendHistory
  by_cases h : (e :: l).length > 200
  · rw [if_pos h]
  · rw [if_neg h]
    simp only [List.length_cons] at h
    exact (List.take_of_length_le (by simp; omega)).symm

/-- Truncating an already-truncated suffix before appending is the same as
truncating once at the end. -/
theorem take_append_take {α : Type} (a l : List α) (n : ℕ) :
    (a ++ l.take n).take n = (a ++ l).take n := by
  rw [List.take_append_eq_append_take, List.take_append_eq_append_take,
    List.take_take, min_eq_left (Nat.sub_le n a.length)]

/-- The head of the history after a push is the pushed entry. -/
theorem appendHistory_head (e : HistoryEntry) (l : List HistoryEntry) :
    (appendHistory e l).head? = some e := by
  unfold appendHistory
  by_cases h : (e :: l).length > 200
  · rw [if_pos h, List.head?_take]
    simp
  · rw [if_neg h]
    rfl

/-- Valid settings give every mode a finite planned duration of at least one
minute. -/
theorem validSettings_minutes (st : Settings) (hv : validSettings st = true)
    (m : Mode) : ∃ q : ℚ, modeToMinutes m st = some q ∧ 1 ≤ q := by
  unfold validSettings at hv
  simp only [Bool.and_eq_true] at hv
  obtain ⟨⟨h1, h2⟩, h3⟩ := hv
  cases m with
  | focus =>
    cases hf : st.focusMin with
    | none => rw [hf] at h1; simp [inClampRange] at h1
    | some q =>
      rw [hf] at h1
      simp only [inClampRange, Bool.and_eq_true, decide_eq_true_eq] at h1
      exact ⟨q, by simp [modeToMinutes, hf], h1.1⟩
  | short =>
    cases hf : st.shortMin with
    | none => rw [hf] at h2; simp [inClampRange] at h2
    | some q =>
      rw [hf] at h2
      simp only [inClampRange, Bool.and_eq_true, decide_eq_true_eq] at h2
      exact ⟨q, by simp [modeToMinutes, hf], h2.1⟩
  | long =>
    cases hf : st.longMin with
    | none => rw [hf] at h3; simp [inClampRange] at h3
    | some q =>
      rw [hf] at h3
      simp only [inClampRange, Bool.and_eq_true, decide_eq_true_eq] at h3
      exact ⟨q, by simp [modeToMinutes, hf], h3.1⟩

/-- A state that is already running absorbs `start` (helper for C9). -/
theorem start_of_running (n : ℚ) (s : TimerState) (h : s.running = true) :
    start n s = s := by
  simp [start, h]

/-! ### Claims -/

/-- C2: mode advancement on phase completion is deterministic and follows
the fixed rule: from focus one completion transitions to the short break;
from the short break one completion transitions to focus; from the long
break one completion transitions to focus. -/
theorem tick_mode_advance (perfNow wallNow : ℚ) (day id : String)
    (s : TimerState) (hrun : s.running = true)
    (hc : completes perfNow s = true) :
    (s.mode = Mode.focus → (tick perfNow wallNow day id s).mode = Mode.short) ∧
    (s.mode = Mode.short → (tick perfNow wallNow day id s).mode = Mode.focus) ∧
    (s.mode = Mode.long → (tick perfNow wallNow day id s).mode = Mode.focus) := by
  rw [tick_eq_of_completes perfNow wallNow day id s hrun hc,
    tickComplete_eq wallNow day id (tickStep perfNow s) hrun]
  refine ⟨?_, ?_, ?_⟩ <;> intro hm <;>
    simp [advanceMode, tickStep, hm]

/-- Witness for C2 at a concrete completing tick from focus. -/
theorem tick_mode_advance_witness :
    sampleRun.running = true ∧ completes 0 sampleRun = true ∧
    sampleRun.mode = Mode.focus ∧
    (tick 0 1500000 sampleDay sampleId sampleRun).mode = Mode.short := by
  have hc : completes 0 sampleRun = true := by
    norm_num [completes, tickDt, sampleRun, sampleState0, initialState, jsSub, jsLe]
  exact ⟨rfl, hc, rfl,
    (tick_mode_advance 0 1500000 sampleDay sampleId sampleRun rfl hc).1 rfl⟩

/-- C3: on every phase completion the appended History Entry records the
planned duration (the current `totalSec`, not the possibly negative
remaining value), the current mode, and start/end timestamps, where the
start timestamp falls back to now minus the planned duration when
`phaseStartISO` was never set. -/
theorem tick_logs_planned_duration (perfNow wallNow : ℚ) (day id : String)
    (s : TimerState) (t : ℚ) (hrun : s.running = true)
    (hc : completes perfNow s = true) (ht : s.totalSec = some t) :
    (tick perfNow wallNow day id s).history.head? =
      some { id := id, day := day, mode := s.mode, duration := some t
             startedAt := some (s.phaseStartISO.getD (wallNow - t * 1000))
             endedAt := wallNow } := by
  rw [tick_eq_of_completes perfNow wallNow day id s hrun hc,
    tickComplete_eq wallNow day id (tickStep perfNow s) hrun]
  simp only [appendHistory_head, Option.some.injEq]
  cases hp : s.phaseStartISO with
  | none => simp [fallbackStart, tickStep, hp, ht, jsSub, jsMulC]
  | some t0 => simp [fallbackStart, tickStep, hp, ht]

/-- Witness for C3 at a concrete completing tick with `phaseStartISO`
unset. -/
theorem tick_logs_planned_duration_witness :
    completes 0 sampleRun = true ∧
    sampleRun.totalSec = some (25 * 60) ∧
    (tick 0 1500000 sampleDay sampleId sampleRun).history.head? =
      some { id := sampleId, day := sampleDay, mode := sampleRun.mode
             duration := some (25 * 60)
             startedAt := some (sampleRun.phaseStartISO.getD (1500000 - 25 * 60 * 1000))
             endedAt := 1500000 } := by
  have hc : completes 0 sampleRun = true := by
    norm_num [completes, tickDt, sampleRun, sampleState0, initialState, jsSub, jsLe]
  exact ⟨hc, rfl,
    tick_logs_planned_duration 0 1500000 sampleDay sampleId sampleRun (25 * 60) rfl hc rfl⟩

/-- C5: after a phase completion during `tick`, if `autoStart` is false the
machine pauses; if `autoStart` is true it remains running with no explicit
`start()` call. -/
theorem tick_autostart (perfNow wallNow : ℚ) (day id : String)
    (s : TimerState) (hrun : s.running = true)
    (hc : completes perfNow s = true) :
    (s.settings.autoStart = false → (tick perfNow wallNow day id s).running = false) ∧
    (s.settings.autoStart = true → (tick perfNow wallNow day id s).running = true) := by
  rw [tick_eq_of_completes perfNow wallNow day id s hrun hc,
    tickComplete_eq wallNow day id (tickStep perfNow s) hrun]
  constructor <;> intro h <;> simp [tickStep, h]

/-- Witness for C5: a completing tick pauses with the default settings and
keeps running with auto-start switched on. -/
theorem tick_autostart_witness :
    sampleRun.settings.autoStart = false ∧
    (tick 0 1500000 sampleDay sampleId sampleRun).running = false ∧
    sampleRunAuto.settings.autoStart = true ∧
    (tick 0 1500000 sampleDay sampleId sampleRunAuto).running = true := by
  have hc : completes 0 sampleRun = true := by
    norm_num [completes, tickDt, sampleRun, sampleState0, initialState, jsSub, jsLe]
  have hc2 : completes 0 sampleRunAuto = true := by
    norm_num [completes, tickDt, sampleRunAuto, sampleRun, sampleState0, initialState,
      jsSub, jsLe]
  exact ⟨rfl, (tick_autostart 0 1500000 sampleDay sampleId sampleRun rfl hc).1 rfl,
    rfl, (tick_autostart 0 1500000 sampleDay sampleId sampleRunAuto rfl hc2).2 rfl⟩

/-- C7: `loadSettings` always returns a complete Settings record: a
partially-stored record is merged field-by-field over the hardcoded
defaults, and a missing or non-parsable stored value yields exactly the
full defaults. -/
theorem loadSettings_spec :
    loadSettings StoredSettings.missing = defaults ∧
    loadSettings StoredSettings.corrupt = defaults ∧
    ∀ p : StoredFields,
      loadSettings (StoredSettings.parsed p) =
        { theme := p.theme.getD defaults.theme
          focusMin := (p.focusMin.map some).getD defaults.focusMin
          shortMin := (p.shortMin.map some).getD defaults.shortMin
          longMin := (p.longMin.map some).getD defaults.longMin
          goalSessions := (p.goalSessions.map some).getD defaults.goalSessions
          autoStart := p.autoStart.getD defaults.autoStart } := by
  refine ⟨rfl, rfl, fun p => ?_⟩
  rcases p with ⟨th, fm, sm, lm, gs, au⟩
  cases fm <;> cases sm <;> cases lm <;> cases gs <;> rfl

/-- C8: `resetTimer true` pauses, keeps the mode, clears `phaseStartISO`,
and sets `remainingSec = totalSec = minutes * 60` for the current mode;
`resetTimer false` additionally forces the mode to focus first. -/
theorem resetTimer_spec (s : TimerState) (m : ℚ)
    (hm : modeToMinutes s.mode s.settings = some m) :
    (resetTimer true s).running = false ∧
    (resetTimer true s).mode = s.mode ∧
    (resetTimer true s).phaseStartISO = none ∧
    (resetTimer true s).totalSec = some (m * 60) ∧
    (resetTimer true s).remainingSec = some (m * 60) ∧
    resetTimer false s = resetTimer true { s with mode := Mode.focus } := by
  refine ⟨rfl, rfl, rfl, ?_, ?_, rfl⟩ <;>
    · show jsMulC (modeToMinutes s.mode s.settings) 60 = some (m * 60)
      rw [hm]
      rfl

/-- Witness for C8 on the freshly loaded default state. -/
theorem resetTimer_spec_witness :
    modeToMinutes sampleState0.mode sampleState0.settings = some 25 ∧
    (resetTimer true sampleState0).running = false ∧
    (resetTimer true sampleState0).mode = sampleState0.mode ∧
    (resetTimer true sampleState0).totalSec = some (25 * 60) ∧
    (resetTimer true sampleState0).remainingSec = some (25 * 60) := by
  have h := resetTimer_spec sampleState0 25 rfl
  exact ⟨rfl, h.1, h.2.1, h.2.2.2.1, h.2.2.2.2.1⟩

/-- C9: `pause` twice equals `pause` once, and `start` twice equals `start`
once (an already-running machine absorbs `start`, so no second tick
schedule is created). -/
theorem pause_start_idem (s : TimerState) (n1 n2 : ℚ) :
    pause (pause s) = pause s ∧ start n2 (start n1 s) = start n1 s := by
  refine ⟨rfl, ?_⟩
  by_cases h : s.running = true
  · rw [start_of_running n1 s h, start_of_running n2 s h]
  · have h0 : s.running = false := by simpa using h
    have hrun2 : (start n1 s).running = true := by
      unfold start
      rw [h0]
      simp only [Bool.false_eq_true, if_false]
      cases hp : s.phaseStartISO <;> cases hi : s.interval <;> simp [hp, hi]
    exact start_of_running n2 (start n1 s) hrun2

/-- C1: while running, `tick` never reports a negative `remainingSec`: the
reported state satisfies `0 <= remainingSec <= totalSec`, and whenever the
wall-clock subtraction would make it non-positive, completion handling
fires exactly once in that tick (exactly one history append) and
`remainingSec` is reset to the new mode's full planned duration. -/
theorem tick_invariant (perfNow wallNow : ℚ) (day id : String)
    (s : TimerState) (r t : ℚ) (hrun : s.running = true)
    (hr : s.remainingSec = some r) (ht : s.totalSec = some t)
    (h0 : 0 ≤ r) (hrt : r ≤ t)
    (hmono : ∀ lp : ℚ, s.lastPerf = some lp → lp ≤ perfNow)
    (hv : validSettings s.settings = true) :
    ∃ r1 t1 : ℚ,
      (tick perfNow wallNow day id s).remainingSec = some r1 ∧
      (tick perfNow wallNow day id s).totalSec = some t1 ∧
      0 ≤ r1 ∧ r1 ≤ t1 ∧
      (completes perfNow s = true →
        r1 = t1 ∧
        (tick perfNow wallNow day id s).history.length
          = min (s.history.length + 1) 200) := by
  have hdt : 0 ≤ tickDt perfNow s := by
    unfold tickDt
    cases hlp : s.lastPerf with
    | none => simp
    | some lp =>
      have hle := hmono lp hlp
      simp only [Option.getD_some]
      exact div_nonneg (by linarith) (by norm_num)
  by_cases hc : completes perfNow s = true
  · rw [tick_eq_of_completes perfNow wallNow day id s hrun hc,
      tickComplete_eq wallNow day id (tickStep perfNow s) hrun]
    obtain ⟨q, hq, hq1⟩ :=
      validSettings_minutes s.settings hv (advanceMode (tickStep perfNow s).mode)
    refine ⟨q * 60, q * 60, ?_, ?_, by linarith, le_refl _, fun _ => ⟨rfl, ?_⟩⟩
    · show jsMulC (modeToMinutes (advanceMode (tickStep perfNow s).mode)
        (tickStep perfNow s).settings) 60 = some (q * 60)
      rw [show (tickStep perfNow s).settings = s.settings from rfl, hq]
      rfl
    · show jsMulC (modeToMinutes (advanceMode (tickStep perfNow s).mode)
        (tickStep perfNow s).settings) 60 = some (q * 60)
      rw [show (tickStep perfNow s).settings = s.settings from rfl, hq]
      rfl
    · show (appendHistory _ (tickStep perfNow s).history).length
        = min (s.history.length + 1) 200
      rw [appendHistory_length]
      rfl
  · have hc0 : completes perfNow s = false := by simpa using hc
    rw [tick_eq_of_not_completes perfNow wallNow day id s hrun hc0]
    have hpos : ¬ (r - tickDt perfNow s ≤ 0) := by
      unfold completes at hc0
      rw [hr] at hc0
      simpa [jsSub, jsLe] using hc0
    refine ⟨r - tickDt perfNow s, t, ?_, ht, by linarith, by linarith, ?_⟩
    · show jsSub s.remainingSec (some (tickDt perfNow s)) = some (r - tickDt perfNow s)
      rw [hr]
      rfl
    · intro h
      rw [h] at hc0
      cases hc0

/-- Witness for C1 at a concrete completing tick. -/
theorem tick_invariant_witness :
    sampleRun.running = true ∧
    sampleRun.remainingSec = some 0 ∧
    sampleRun.totalSec = some (25 * 60) ∧
    validSettings sampleRun.settings = true ∧
    (∃ r1 t1 : ℚ,
      (tick 0 1500000 sampleDay sampleId sampleRun).remainingSec = some r1 ∧
      (tick 0 1500000 sampleDay sampleId sampleRun).totalSec = some t1 ∧
      0 ≤ r1 ∧ r1 ≤ t1 ∧
      (completes 0 sampleRun = true →
        r1 = t1 ∧
        (tick 0 1500000 sampleDay sampleId sampleRun).history.length
          = min (sampleRun.history.length + 1) 200)) := by
  refine ⟨rfl, rfl, rfl, by decide, ?_⟩
  exact tick_invariant 0 1500000 sampleDay sampleId sampleRun 0 (25 * 60) rfl rfl rfl
    (le_refl 0) (by norm_num) (fun lp hlp => Option.noConfusion hlp) (by decide)

/-- C4: for every sequence of completions the history log stays
newest-first (each append prepends) and never exceeds 200 entries, the
oldest entries being the ones dropped: folding the appends equals
prepending all entries in reverse order and keeping only the newest 200. -/
theorem history_cap (h0 : List HistoryEntry) (hlen : h0.length ≤ 200)
    (es : List HistoryEntry) :
    appendAll es h0 = (es.reverse ++ h0).take 200 ∧
    (appendAll es h0).length ≤ 200 ∧
    (∀ (e : HistoryEntry) (l : List HistoryEntry),
      (appendHistory e l).head? = some e) := by
  have main : ∀ (es h : List HistoryEntry), h.length ≤ 200 →
      appendAll es h = (es.reverse ++ h).take 200 := by
    intro es
    induction es with
    | nil =>
      intro h hl
      simp [appendAll, List.take_of_length_le hl]
    | cons e es ih =>
      intro h hl
      have step : appendAll (e :: es) h = appendAll es (appendHistory e h) := rfl
      rw [step, appendHistory_eq_take e h hl,
        ih ((e :: h).take 200) (by simp [List.length_take]),
        take_append_take]
      congr 1
      simp
  refine ⟨main es h0 hlen, ?_, fun e l => appendHistory_head e l⟩
  rw [main es h0 hlen]
  simp [List.length_take]

/-- Witness for C4 with an empty starting log and one appended entry. -/
theorem history_cap_witness :
    ([] : List HistoryEntry).length ≤ 200 ∧
    appendAll [sampleEntry] [] = ([sampleEntry].reverse ++ []).take 200 ∧
    (appendAll [sampleEntry] []).length ≤ 200 := by
  have h := history_cap [] (by simp) [sampleEntry]
  exact ⟨by simp, h.1, h.2.1⟩

/-- The settings after `applySettingsFromUI`, independent of the running
branch (the implicit reset touches no settings field). -/
theorem applySettings_settings (ui : UIInputs) (s : TimerState) :
    (applySettingsFromUI ui s).settings =
      { s.settings with
        focusMin := clamp (toNumber 25 ui.focusInput) 1 120
        shortMin := clamp (toNumber 5 ui.shortInput) 1 60
        longMin := clamp (toNumber 15 ui.longInput) 1 90
        goalSessions := clamp (toNumber 8 ui.goalInput) 1 30
        autoStart := ui.autoStartChecked } := by
  by_cases h : s.running = true
  · simp [applySettingsFromUI, h]
  · have h0 : s.running = false := by simpa using h
    simp [applySettingsFromUI, h0, resetTimer, pause]

/-- Clamping a finite value lands inside the range. -/
theorem clamp_some_inRange (q a b : ℚ) (hab : a ≤ b) :
    inClampRange (clamp (some q) a b) a b = true := by
  simp only [clamp, jsMin, jsMax, inClampRange, Bool.and_eq_true, decide_eq_true_eq]
  exact ⟨le_max_left _ _, max_le hab (min_le_left _ _)⟩

/-- An input that is empty or coerces to a number yields a finite
`Number(value || default)`. -/
theorem toNumber_some (d : ℚ) (v : UIValue) (hv : v ≠ UIValue.nonNumeric) :
    ∃ q : ℚ, toNumber d v = some q := by
  cases v with
  | empty => exact ⟨d, rfl⟩
  | num q => exact ⟨q, rfl⟩
  | nonNumeric => exact absurd rfl hv

/-- C6 counterexample: a non-numeric, non-empty focus input is not clamped
to a bound — `clamp(Number("abc"), 1, 120)` is NaN (Math.min and Math.max
propagate NaN), so the persisted `focusMin` is NaN and lies outside the
range 1-120, contrary to the claim. -/
theorem applySettings_nonNumeric_cex :
    (applySettingsFromUI sampleUIBad sampleState0).settings.focusMin = none ∧
    inClampRange (applySettingsFromUI sampleUIBad sampleState0).settings.focusMin
      1 120 = false := by
  constructor <;> rfl

/-- C6 amended: for every settings input whose fields are empty or coerce
to a number, out-of-range values are clamped to the nearest valid bound
before persisting (focus 1-120, short 1-60, long 1-90, goal 1-30), so those
persisted numeric fields are always within their clamp range; a non-empty
non-numeric field instead persists NaN. -/
theorem applySettings_clamped (ui : UIInputs) (s : TimerState)
    (hf : ui.focusInput ≠ UIValue.nonNumeric)
    (hs : ui.shortInput ≠ UIValue.nonNumeric)
    (hl : ui.longInput ≠ UIValue.nonNumeric)
    (hg : ui.goalInput ≠ UIValue.nonNumeric) :
    inClampRange (applySettingsFromUI ui s).settings.focusMin 1 120 = true ∧
    inClampRange (applySettingsFromUI ui s).settings.shortMin 1 60 = true ∧
    inClampRange (applySettingsFromUI ui s).settings.longMin 1 90 = true ∧
    inClampRange (applySettingsFromUI ui s).settings.goalSessions 1 30 = true := by
  rw [applySettings_settings]
  obtain ⟨qf, hqf⟩ := toNumber_some 25 ui.focusInput hf
  obtain ⟨qs, hqs⟩ := toNumber_some 5 ui.shortInput hs
  obtain ⟨ql, hql⟩ := toNumber_some 15 ui.longInput hl
  obtain ⟨qg, hqg⟩ := toNumber_some 8 ui.goalInput hg
  refine ⟨?_, ?_, ?_, ?_⟩
  · show inClampRange (clamp (toNumber 25 ui.focusInput) 1 120) 1 120 = true
    rw [hqf]
    exact clamp_some_inRange qf 1 120 (by norm_num)
  · show inClampRange (clamp (toNumber 5 ui.shortInput) 1 60) 1 60 = true
    rw [hqs]
    exact clamp_some_inRange qs 1 60 (by norm_num)
  · show inClampRange (clamp (toNumber 15 ui.longInput) 1 90) 1 90 = true
    rw [hql]
    exact clamp_some_inRange ql 1 90 (by norm_num)
  · show inClampRange (clamp (toNumber 8 ui.goalInput) 1 30) 1 30 = true
    rw [hqg]
    exact clamp_some_inRange qg 1 30 (by norm_num)

/-- Witness for the amended C6 on inputs that are empty or numeric, several
out of range. -/
theorem applySettings_clamped_witness :
    sampleUIGood.focusInput ≠ UIValue.nonNumeric ∧
    inClampRange (applySettingsFromUI sampleUIGood sampleState0).settings.focusMin
      1 120 = true ∧
    inClampRange (applySettingsFromUI sampleUIGood sampleState0).settings.shortMin
      1 60 = true ∧
    inClampRange (applySettingsFromUI sampleUIGood sampleState0).settings.longMin
      1 90 = true ∧
    inClampRange (applySettingsFromUI sampleUIGood sampleState0).settings.goalSessions
      1 30 = true := by
  have h := applySettings_clamped sampleUIGood sampleState0
    (by decide) (by decide) (by decide) (by decide)
  exact ⟨by decide, h.1, h.2.1, h.2.2.1, h.2.2.2⟩

/-- C10: `setMode` while running changes the stored mode itself but leaves
`totalSec`, `remainingSec`, `running` and `phaseStartISO` untouched;
consequently a completion before any reset logs a History Entry whose mode
is the newly selected mode but whose duration is the previous phase's
planned `totalSec`, and the advancement rule is applied to the newly
selected mode. -/
theorem setMode_running_label (m : Mode) (perfNow wallNow : ℚ)
    (day id : String) (s : TimerState) (hrun : s.running = true) :
    (setMode m s).mode = m ∧
    (setMode m s).totalSec = s.totalSec ∧
    (setMode m s).remainingSec = s.remainingSec ∧
    (setMode m s).running = true ∧
    (setMode m s).phaseStartISO = s.phaseStartISO ∧
    (completes perfNow (setMode m s) = true →
      (tick perfNow wallNow day id (setMode m s)).history.head? =
        some { id := id, day := day, mode := m, duration := s.totalSec
               startedAt := fallbackStart wallNow s, endedAt := wallNow } ∧
      (tick perfNow wallNow day id (setMode m s)).mode = advanceMode m) := by
  have hsm : setMode m s = { s with mode := m } := by
    simp [setMode, hrun]
  have hX : ({ s with mode := m } : TimerState).running = true := hrun
  refine ⟨by rw [hsm], by rw [hsm], by rw [hsm], by rw [hsm]; exact hrun,
    by rw [hsm], ?_⟩
  intro hc
  rw [hsm] at hc ⊢
  rw [tick_eq_of_completes perfNow wallNow day id _ hX hc,
    tickComplete_eq wallNow day id (tickStep perfNow { s with mode := m }) hX]
  constructor
  · show (appendHistory _ _).head? = _
    rw [appendHistory_head]
    rfl
  · rfl

/-- Witness for C10: selecting the long-break tab mid-flight, then a
completing tick. -/
theorem setMode_running_label_witness :
    sampleRun.running = true ∧
    (setMode Mode.long sampleRun).mode = Mode.long ∧
    (setMode Mode.long sampleRun).totalSec = sampleRun.totalSec ∧
    (setMode Mode.long sampleRun).remainingSec = sampleRun.remainingSec ∧
    completes 0 (setMode Mode.long sampleRun) = true ∧
    (tick 0 1500000 sampleDay sampleId (setMode Mode.long sampleRun)).history.head? =
      some { id := sampleId, day := sampleDay, mode := Mode.long
             duration := sampleRun.totalSec
             startedAt := fallbackStart 1500000 sampleRun, endedAt := 1500000 } ∧
    (tick 0 1500000 sampleDay sampleId (setMode Mode.long sampleRun)).mode =
      advanceMode Mode.long := by
  have hc : completes 0 (setMode Mode.long sampleRun) = true := by
    norm_num [completes, tickDt, setMode, resetTimer, pause, sampleRun, sampleState0,
      initialState, jsSub, jsLe]
  have h := setMode_running_label Mode.long 0 1500000 sampleDay sampleId sampleRun rfl
  exact ⟨rfl, h.1, h.2.1, h.2.2.1, hc, (h.2.2.2.2.2 hc).1, (h.2.2.2.2.2 hc).2⟩
